import Mathlib

/-!
Verification development for the CSV-upload service
(`src/csv_processor.py`, `src/handler.py`, `src/dynamodb_service.py`,
`src/models.py`).

The Python source is shallowly embedded: byte strings become `List Nat`,
text becomes `List Char` / `String`, dictionaries become association
lists with Python `dict` semantics made explicit (insertion order of
keys, last write wins), and fallible operations return `Option`.
Python's `csv` module (default dialect, as used through `io.StringIO`
with its default `newline='\n'`) is embedded as the character-level
state machine of CPython's `_csv.c` reader.

Modelling notes, applying throughout:
* `str.lower()` / `str.strip()` are modelled on ASCII data (the inputs
  of interest are ASCII); the Unicode-only aspects of Python case
  mapping and whitespace are not modelled.
* Interpolated fragments of Python error strings (`str(e)`, the
  formatted megabyte count) are abbreviated to fixed strings; every
  claim below depends only on the reasons being non-empty and
  check-specific, never on the interpolated text.
* The `csv` module's field-size limit (131072 characters) is not
  modelled.
-/

/-- ASCII case of `str.lower()` on one character. -/
def pyLowerChar (c : Char) : Char :=
  if 'A' ≤ c ∧ c ≤ 'Z' then Char.ofNat (c.toNat + 32) else c

/-- ASCII model of Python `str.lower()`. -/
def pyLower (s : String) : String := ⟨s.data.map pyLowerChar⟩

/-- The character set stripped by Python `str.strip()` (ASCII part). -/
def pyWhitespace : List Char := [' ', '\t', '\n', '\r', '\x0b', '\x0c']

/-- ASCII model of Python `str.strip()`. -/
def pyStripChars (l : List Char) : List Char :=
  ((l.dropWhile (pyWhitespace.contains ·)).reverse.dropWhile
    (pyWhitespace.contains ·)).reverse

/-- ASCII model of Python `str.strip()` on `String`. -/
def pyStrip (s : String) : String := ⟨pyStripChars s.data⟩

/-- Python `str.rstrip(chars)`: drop trailing characters of the set. -/
def pyRstrip (set : List Char) (l : List Char) : List Char :=
  (l.reverse.dropWhile (set.contains ·)).reverse

/-- `leadsWith p l` holds when `p` is an initial segment of `l`
(Python `str.startswith`, used to locate substrings). -/
def leadsWith : List Char → List Char → Bool
  | [], _ => true
  | _ :: _, [] => false
  | a :: p, b :: l => a == b && leadsWith p l

/-- `endsList l p`: `l` ends with `p` (Python `str.endswith`). -/
def endsList (l p : List Char) : Bool := leadsWith p.reverse l.reverse

/-- Index of the first occurrence of `pat` as a contiguous sublist
(Python `str.find`, `none` for Python's `-1`). -/
def firstOcc? (pat : List Char) : List Char → Option Nat
  | [] => if pat.isEmpty then some 0 else none
  | c :: rest =>
    if leadsWith pat (c :: rest) then some 0
    else (firstOcc? pat rest).map (· + 1)

/-- Python's substring containment test `pat in s`. -/
def containsSub (pat : List Char) : List Char → Bool
  | [] => pat.isEmpty
  | c :: rest => leadsWith pat (c :: rest) || containsSub pat rest

/-- Fuel-driven worker for `splitOnSub`; the fuel only serves
termination and is always ample at the call site. -/
def splitGo (pat : List Char) : Nat → List Char → List (List Char)
  | 0, l => [l]
  | fuel + 1, l =>
    match firstOcc? pat l with
    | none => [l]
    | some i => l.take i :: splitGo pat fuel (l.drop (i + pat.length))

/-- Python `str.split(pat)` for a non-empty separator `pat`:
the pieces between consecutive non-overlapping occurrences of `pat`,
scanned left to right. -/
def splitOnSub (pat : List Char) (l : List Char) : List (List Char) :=
  if pat.isEmpty then [l] else splitGo pat (l.length + 1) l

/-- Distinct elements of a list, first occurrences, in order: the key
sequence of a Python `dict` built by repeated insertion. -/
def dedupFirst : List String → List String
  | [] => []
  | x :: r => x :: (dedupFirst r).filter (· ≠ x)

/-- Value of the last binding of `k` in an association list, or `d`:
the read-out of a Python `dict` built with "last write wins". -/
def lastGetD (al : List (String × String)) (k : String) (d : String) : String :=
  match (al.filter (·.1 = k)).getLast? with
  | some p => p.2
  | none => d

/-- Lookup in an association list with unique keys (a materialised
Python `dict`), with default. -/
def alGetD (al : List (String × String)) (k : String) (d : String) : String :=
  match al.find? (·.1 = k) with
  | some p => p.2
  | none => d

/-- Optional lookup in an association list (Python `dict.get`). -/
def alGet? (al : List (String × String)) (k : String) : Option String :=
  (al.find? (·.1 = k)).map (·.2)

/-- A UTF-8 continuation byte. -/
def isCont (b : Nat) : Bool := 0x80 ≤ b && b ≤ 0xBF

/-- Python's strict UTF-8 decoder (`bytes.decode('utf-8')`): rejects
overlong forms, surrogates and code points above `U+10FFFF`, exactly as
CPython does; `none` models `UnicodeDecodeError`. -/
def decodeUtf8 : List Nat → Option (List Char)
  | [] => some []
  | b :: l =>
    if b < 0x80 then (decodeUtf8 l).map (Char.ofNat b :: ·)
    else if b < 0xC2 then none
    else if b < 0xE0 then
      match l with
      | b1 :: l1 =>
        if isCont b1 then
          (decodeUtf8 l1).map (Char.ofNat ((b - 0xC0) * 64 + (b1 - 0x80)) :: ·)
        else none
      | [] => none
    else if b < 0xF0 then
      match l with
      | b1 :: b2 :: l2 =>
        if (if b = 0xE0 then 0xA0 ≤ b1 && b1 ≤ 0xBF
            else if b = 0xED then 0x80 ≤ b1 && b1 ≤ 0x9F
            else isCont b1) && isCont b2 then
          (decodeUtf8 l2).map
            (Char.ofNat ((b - 0xE0) * 4096 + (b1 - 0x80) * 64 + (b2 - 0x80)) :: ·)
        else none
      | _ => none
    else if b < 0xF5 then
      match l with
      | b1 :: b2 :: b3 :: l3 =>
        if (if b = 0xF0 then 0x90 ≤ b1 && b1 ≤ 0xBF
            else if b = 0xF4 then 0x80 ≤ b1 && b1 ≤ 0x8F
            else isCont b1) && isCont b2 && isCont b3 then
          (decodeUtf8 l3).map
            (Char.ofNat ((b - 0xF0) * 262144 + (b1 - 0x80) * 4096
              + (b2 - 0x80) * 64 + (b3 - 0x80)) :: ·)
        else none
      | _ => none
    else none

/-- The UTF-8 bytes of an ASCII string (used to build concrete byte
inputs for the byte-level entry points). -/
def asciiBytes (s : String) : List Nat := s.data.map (·.toNat)

/-!
## The CPython `csv` reader (default dialect)

States of `parse_process_char` in `Modules/_csv.c`, for the default
dialect (delimiter `,`, quotechar `"`, doublequote, no escapechar,
non-strict), reading from an `io.StringIO` whose default `newline='\n'`
makes `'\n'` the only line terminator.  The per-line end-of-data
transition of `Reader_iternext` is fused into the `'\n'` step (a line
always ends right after its `'\n'`), and a record is emitted whenever
that fused step lands in `START_RECORD`.  A character following `'\r'`
on the same line that is neither `'\r'` nor `'\n'` raises
`csv.Error("new-line character seen in unquoted field ...")`; the
`error` flag models that exception, and the records collected before it
are the ones the lazy reader had already yielded.
-/

inductive CsvMode where
  | startRecord | startField | inField | inQuoted | quoteInQuoted | eatCRNL
deriving DecidableEq, Repr

structure CsvSt where
  mode : CsvMode
  field : List Char
  fields : List (List Char)
  records : List (List (List Char))
  error : Bool
deriving Repr

def csvInit : CsvSt := ⟨CsvMode.startRecord, [], [], [], false⟩

/-- Push the accumulated field onto the current record. -/
def csvSave (st : CsvSt) : CsvSt :=
  { st with field := [], fields := st.fields ++ [st.field.reverse] }

/-- Emit the current record (the reader returning a row). -/
def csvEmit (st : CsvSt) : CsvSt :=
  { st with fields := [], records := st.records ++ [st.fields] }

/-- One character step of the reader (with the line-end transition
fused into `'\n'`). -/
def csvStep (st : CsvSt) (c : Char) : CsvSt :=
  if st.error then st else
  match st.mode with
  | CsvMode.startRecord =>
    if c = '\n' then csvEmit st
    else if c = '\r' then { st with mode := CsvMode.eatCRNL }
    else if c = ',' then { (csvSave st) with mode := CsvMode.startField }
    else if c = '"' then { st with mode := CsvMode.inQuoted }
    else { st with mode := CsvMode.inField, field := [c] }
  | CsvMode.startField =>
    if c = '\n' then { (csvEmit (csvSave st)) with mode := CsvMode.startRecord }
    else if c = '\r' then { (csvSave st) with mode := CsvMode.eatCRNL }
    else if c = ',' then csvSave st
    else if c = '"' then { st with mode := CsvMode.inQuoted }
    else { st with mode := CsvMode.inField, field := [c] }
  | CsvMode.inField =>
    if c = '\n' then { (csvEmit (csvSave st)) with mode := CsvMode.startRecord }
    else if c = '\r' then { (csvSave st) with mode := CsvMode.eatCRNL }
    else if c = ',' then { (csvSave st) with mode := CsvMode.startField }
    else { st with field := c :: st.field }
  | CsvMode.inQuoted =>
    if c = '"' then { st with mode := CsvMode.quoteInQuoted }
    else { st with field := c :: st.field }
  | CsvMode.quoteInQuoted =>
    if c = '"' then { st with mode := CsvMode.inQuoted, field := c :: st.field }
    else if c = ',' then { (csvSave st) with mode := CsvMode.startField }
    else if c = '\n' then { (csvEmit (csvSave st)) with mode := CsvMode.startRecord }
    else if c = '\r' then { (csvSave st) with mode := CsvMode.eatCRNL }
    else { st with mode := CsvMode.inField, field := c :: st.field }
  | CsvMode.eatCRNL =>
    if c = '\n' then { (csvEmit st) with mode := CsvMode.startRecord }
    else if c = '\r' then st
    else { st with error := true }

/-- End-of-input step: the end-of-data handling of the final line (no
trailing `'\n'`) plus `Reader_iternext`'s non-strict EOF completion of
a pending quoted field. -/
def csvFinish (st : CsvSt) : CsvSt :=
  if st.error then st else
  match st.mode with
  | CsvMode.startRecord => st
  | CsvMode.eatCRNL => { (csvEmit st) with mode := CsvMode.startRecord }
  | _ => { (csvEmit (csvSave st)) with mode := CsvMode.startRecord }

/-- All records of `csv.reader` on the given text, paired with whether
iterating the reader that far raises `csv.Error`; the records listed
are those yielded before any error. -/
def csvParse (l : List Char) : List (List (List Char)) × Bool :=
  let st := csvFinish (l.foldl csvStep csvInit)
  (st.records, st.error)


/-!
## Data model (`src/models.py`, `src/csv_processor.py`)
-/

/-- `PREDEFINED_COLUMNS` of `csv_processor.py` (a Python `set` of nine
lower-case names; modelled as a list, used only through membership). -/
def PREDEFINED_COLUMNS : List String :=
  ["user_id", "name", "email", "phone_number", "country",
   "state", "city", "signup_date", "last_active_date"]

def MAX_FILE_SIZE_BYTES : Nat := 5 * 1024 * 1024

def MAX_PREVIEW_ROWS : Nat := 10

/-- `models.UserDataRow`: every field `Optional[str] = None`. -/
structure UserDataRow where
  user_id : Option String := none
  name : Option String := none
  email : Option String := none
  phone_number : Option String := none
  country : Option String := none
  state : Option String := none
  city : Option String := none
  signup_date : Option String := none
  last_active_date : Option String := none
deriving DecidableEq, Repr

/-- `UserDataRow(**normalized_row)`: pydantic validation of a model
whose fields are all `Optional[str]`, from keyword arguments whose
values are all `str` (and whose keys, here, always lie inside the field
set).  Such validation cannot fail, so the embedded constructor is
total; it is kept `Option`-valued to mirror the `try/except` shape at
its call sites. -/
def rowValidate (al : List (String × String)) : Option UserDataRow :=
  some
    { user_id := alGet? al "user_id"
      name := alGet? al "name"
      email := alGet? al "email"
      phone_number := alGet? al "phone_number"
      country := alGet? al "country"
      state := alGet? al "state"
      city := alGet? al "city"
      signup_date := alGet? al "signup_date"
      last_active_date := alGet? al "last_active_date" }

/-- `models.CSVPreviewResponse`.  `preview_data` rows are association
lists keyed by original-case column names. -/
structure CSVPreviewResponse where
  status : String
  message : String
  valid_columns : List String
  invalid_columns : List String
  total_rows : Nat
  valid_rows : Nat
  preview_data : List (List (String × String))
  errors : List String
deriving DecidableEq, Repr

/-!
## `validate_csv_file` (`csv_processor.py` lines 17-50)
-/

/-- `validate_csv_file(file_content, filename)`.  The four checks in
source order, short-circuiting: extension, size, UTF-8 decoding, and
`next(csv.reader(...))` on the decoded text — which succeeds exactly
when the reader yields a first record, raises `csv.Error` when the
tokenizer errors before any record, and raises `StopIteration` on an
empty file. -/
def validate_csv_file (file_content : List Nat) (filename : String) :
    Bool × String :=
  if ¬ endsList (pyLower filename).data ".csv".data then
    (false, "Only .csv files are accepted")
  else if file_content.length > MAX_FILE_SIZE_BYTES then
    (false, "File size exceeds 5MB limit")
  else
    match decodeUtf8 file_content with
    | none => (false, "File encoding not supported. Please use UTF-8 encoding")
    | some cs =>
      if (csvParse cs).1 ≠ [] then (true, "")
      else if (csvParse cs).2 then (false, "Invalid CSV format")
      else (false, "Empty CSV file")

/-!
## `parse_csv_content` (`csv_processor.py` lines 53-147)
-/

/-- The cell of a `csv.DictReader` row dictionary at column `col`:
`dict(zip(fieldnames, row))` with `restval=None` rewrites mean the
value at the last index of `col` in the headers, or `None` when the
row is shorter; composed with the source's `(row.get(col, "") or "")`
both `None` and a missing column become `""`. -/
def rowCell (headers : List String) (rec : List String) (col : String) : String :=
  match ((headers.enum.filter (·.2 = col)).getLast?).map (·.1) with
  | some i => rec.getD i ""
  | none => ""

/-- `column_mapping` (line 89): `{col: col.lower() for col in headers if
col.lower() in PREDEFINED_COLUMNS}` — a dict, so distinct header
spellings in first-occurrence order. -/
def columnMappingOf (headers : List String) : List (String × String) :=
  (dedupFirst headers).filterMap fun h =>
    if PREDEFINED_COLUMNS.contains (pyLower h) then some (h, pyLower h) else none

/-- `normalized_row` (lines 102-104) as the materialised dict: keys in
first-insertion order, each holding the last value written for it. -/
def normalizedRowOf (headers : List String) (rec : List String) :
    List (String × String) :=
  let raw := (columnMappingOf headers).map fun p =>
    (p.2, pyStrip (rowCell headers rec p.1))
  (dedupFirst (raw.map (·.1))).map fun k => (k, lastGetD raw k "")

/-- `preview_row` (lines 114-117), keyed by the original-case names of
`valid_columns`. -/
def previewRowOf (valid_columns : List String) (nr : List (String × String)) :
    List (String × String) :=
  valid_columns.map fun oc => (oc, alGetD nr (pyLower oc) "")

/-- Loop state of the row pass (lines 92-121). -/
structure RowLoopSt where
  total : Nat
  valid : Nat
  errors : List String
  preview : List (List (String × String))
deriving Repr

/-- One iteration of `for row_idx, row in enumerate(csv_reader)`. -/
def processRow (headers : List String) (valid_columns : List String)
    (st : RowLoopSt) (irec : Nat × List String) : RowLoopSt :=
  let nr := normalizedRowOf headers irec.2
  match rowValidate nr with
  | some _ =>
    { st with
      total := st.total + 1
      valid := st.valid + 1
      preview :=
        if st.preview.length < MAX_PREVIEW_ROWS then
          st.preview ++ [previewRowOf valid_columns nr]
        else st.preview }
  | none =>
    { st with
      total := st.total + 1
      errors := st.errors ++ ["Row " ++ toString (irec.1 + 2) ++ ": invalid"] }

/-- The `except` branch of `parse_csv_content` (lines 137-147). -/
def parseErrorResponse (e : String) : CSVPreviewResponse :=
  ⟨"error", "Failed to parse CSV file", [], [], 0, 0, [], ["Parse error: " ++ e]⟩

/-- The no-valid-columns short-circuit (lines 76-86). -/
def noValidColumnsResponse (invalid : List String) : CSVPreviewResponse :=
  ⟨"error", "No valid columns found", [], invalid, 0, 0, [],
    ["No valid columns found. Expected columns: "
      ++ String.intercalate ", " PREDEFINED_COLUMNS]⟩

/-- `parse_csv_content` after decoding, as a function of the reader's
records and error flag.  `fieldnames` forces the first record (an error
there propagates to the `except` branch); the valid-columns check runs
before any data row is read, so a later tokenizer error is only hit —
and only then reaches the `except` branch — when valid columns exist;
`DictReader` skips empty records. -/
def headersOf (hdrC : List (List Char)) : List String :=
  hdrC.map fun f => ⟨f⟩

/-- `valid_columns` (line 72): exact-match intersection of the header
set with `PREDEFINED_COLUMNS` (set iteration order is unspecified in
Python; first-occurrence order is fixed here). -/
def validColumnsOf (headers : List String) : List String :=
  (dedupFirst headers).filter (PREDEFINED_COLUMNS.contains ·)

/-- `invalid_columns` (line 73): exact-match set difference. -/
def invalidColumnsOf (headers : List String) : List String :=
  (dedupFirst headers).filter fun h => ¬ PREDEFINED_COLUMNS.contains h

/-- The data rows seen by the `DictReader` loop: every record after
the header, empty records skipped. -/
def dataRowsOf (dataC : List (List (List Char))) : List (List String) :=
  ((dataC.map (·.map fun f => (⟨f⟩ : String)))).filter (· ≠ [])

/-- The final state of the row pass (lines 92-121). -/
def rowLoopOf (headers : List String) (dataC : List (List (List Char))) :
    RowLoopSt :=
  (dataRowsOf dataC).enum.foldl
    (processRow headers (validColumnsOf headers)) ⟨0, 0, [], []⟩

def previewOfParse (recs : List (List (List Char))) (err : Bool) :
    CSVPreviewResponse :=
  match recs with
  | [] =>
    if err then parseErrorResponse "new-line character seen in unquoted field"
    else noValidColumnsResponse []
  | hdrC :: dataC =>
    if validColumnsOf (headersOf hdrC) = [] then
      noValidColumnsResponse (invalidColumnsOf (headersOf hdrC))
    else if err then
      parseErrorResponse "new-line character seen in unquoted field"
    else
      ⟨if (rowLoopOf (headersOf hdrC) dataC).valid > 0 then "success" else "warning",
        "Found " ++ toString (rowLoopOf (headersOf hdrC) dataC).valid
          ++ " valid rows out of "
          ++ toString (rowLoopOf (headersOf hdrC) dataC).total ++ " total rows",
        validColumnsOf (headersOf hdrC), invalidColumnsOf (headersOf hdrC),
        (rowLoopOf (headersOf hdrC) dataC).total,
        (rowLoopOf (headersOf hdrC) dataC).valid,
        (rowLoopOf (headersOf hdrC) dataC).preview,
        (rowLoopOf (headersOf hdrC) dataC).errors.take 10⟩

/-- `parse_csv_content(file_content)` (lines 53-147).  Total: every
failure path of the source is a caught exception returning a response. -/
def parse_csv_content (file_content : List Nat) : CSVPreviewResponse :=
  match decodeUtf8 file_content with
  | none => parseErrorResponse "invalid UTF-8"
  | some cs => previewOfParse (csvParse cs).1 (csvParse cs).2

/-!
## `extract_valid_rows` (`csv_processor.py` lines 150-189)
-/

/-- One iteration of the extraction loop (lines 170-184): keep the
normalized row when some dict value is non-empty and the pydantic
validation succeeds. -/
def extractStep (headers : List String) (acc : List (List (String × String)))
    (rec : List String) : List (List (String × String)) :=
  let nr := normalizedRowOf headers rec
  if (nr.map (·.2)).any (· ≠ "") then
    match rowValidate nr with
    | some _ => acc ++ [nr]
    | none => acc
  else acc

/-- `extract_valid_rows` after decoding, as a function of the reader's
records and error flag (a tokenizer error anywhere aborts the loop and
the `except` branch returns `[]`). -/
def extractOfParse (recs : List (List (List Char))) (err : Bool) :
    List (List (String × String)) :=
  if err then []
  else
    match recs with
    | [] => []
    | hdrC :: dataC =>
      (dataRowsOf dataC).foldl (extractStep (headersOf hdrC)) []

/-- `extract_valid_rows(file_content)` (lines 150-189). -/
def extract_valid_rows (file_content : List Nat) :
    List (List (String × String)) :=
  match decodeUtf8 file_content with
  | none => []
  | some cs => extractOfParse (csvParse cs).1 (csvParse cs).2

/-!
## `DynamoDBService.write_csv_data` (`dynamodb_service.py` lines 30-83)
-/

/-- One DynamoDB item (lines 58-67): service fields plus every
non-empty user field, stripped. -/
def dynamoItem (entry_id source_file created_at : String)
    (row : List (String × String)) : List (String × String) :=
  [("entry_id", entry_id), ("source_file", source_file),
   ("created_at", created_at)]
    ++ row.filterMap fun kv =>
      if pyStrip kv.2 ≠ "" then some (kv.1, pyStrip kv.2) else none

/-- `write_csv_data(csv_rows, s3_file_key)`.  The `boto3` batch writer
is abstracted by `batchOk`: whether the batch call as a whole reports
success (its puts are buffered and flushed as a unit from this
component's perspective; a `ClientError` is re-raised, modelled by
`none`).  The second component records whether the record store was
invoked at all.  `entry_id` generation (`uuid4`) and the shared
`created_at` timestamp do not influence the returned count and are kept
abstract via `dynamoItem`. -/
def write_csv_data (csv_rows : List (List (String × String)))
    (s3_file_key : String) (batchOk : Bool) : Option Nat × Bool :=
  if csv_rows.isEmpty then (some 0, false)
  else if batchOk then (some csv_rows.length, true)
  else (none, true)

/-!
## `parse_multipart_file` (`handler.py` lines 371-420)

The source decodes `body_bytes` with `errors='ignore'` and re-encodes
the extracted payload; the parsing itself is pure text processing, so
it is embedded on the decoded text (`List Char`).
-/

/-- Boundary extraction (lines 378-380):
`content_type.split("boundary=")[1].split(";")[0]` when the marker
occurs, else `None`. -/
def extract_boundary (content_type : List Char) : Option (List Char) :=
  if containsSub "boundary=".data content_type then
    let seg := (splitOnSub "boundary=".data content_type).getD 1 []
    some ((splitOnSub [';'] seg).headD [])
  else none

/-- Filename extraction (lines 394-402): the first line containing
`filename=` decides; double quotes, then single quotes, else `None`. -/
def extractFilename (part : List Char) : Option (List Char) :=
  match (splitOnSub ['\n'] part).find? (containsSub "filename=".data ·) with
  | none => none
  | some line =>
    if containsSub "filename=\"".data line then
      some (((splitOnSub "filename=\"".data line).getD 1 []).takeWhile (· ≠ '"'))
    else if containsSub "filename=\x27".data line then
      some (((splitOnSub "filename=\x27".data line).getD 1 []).takeWhile (· ≠ '\x27'))
    else none

/-- Payload extraction within a part (lines 404-414): locate
`"\r\n\r\n"`, falling back to `"\n\n"`; skip four characters past the
separator start in either case; `rstrip('\r\n-')`; drop a trailing
`--boundary` marker. -/
def partPayload (boundary part : List Char) (sepIdx : Nat) : List Char :=
  let fc := pyRstrip ['\r', '\n', '-'] (part.drop (sepIdx + 4))
  if endsList fc ('-' :: '-' :: boundary) then
    fc.take (fc.length - ('-' :: '-' :: boundary).length)
  else fc

/-- The `for part in parts` scan (lines 391-414): first part carrying
both a `filename=` and a `name="file"` marker for which a blank-line
separator and a filename are found wins; otherwise the scan goes on. -/
def findFilePart (boundary : List Char) :
    List (List Char) → Option (List Char × List Char)
  | [] => none
  | part :: rest =>
    if containsSub "filename=".data part
        && containsSub "name=\"file\"".data part then
      match
        (match firstOcc? "\r\n\r\n".data part with
         | some i => some i
         | none => firstOcc? "\n\n".data part),
        extractFilename part with
      | some i, some f => some (partPayload boundary part i, f)
      | _, _ => findFilePart boundary rest
    else findFilePart boundary rest

/-- `parse_multipart_file(body_bytes, content_type)`; `none` models the
`(None, None)` not-found return. -/
def parse_multipart_file (body content_type : List Char) :
    Option (List Char × List Char) :=
  match extract_boundary content_type with
  | none => none
  | some boundary =>
    if boundary.isEmpty then none
    else findFilePart boundary (splitOnSub ('-' :: '-' :: boundary) body)

/-- Modelled from the spec's words for comparison with
`extract_boundary`: "the substring after `boundary=` up to the next
semicolon or end of header". -/
def boundarySpecOriginal (ct : List Char) : Option (List Char) :=
  (firstOcc? "boundary=".data ct).map fun i =>
    (ct.drop (i + "boundary=".data.length)).takeWhile (· ≠ ';')

/-- Modelled from the amended wording: the substring after the first
`boundary=`, truncated at the next occurrence of `boundary=` (if any)
and then at the next semicolon or end of header. -/
def boundarySpecAmended (ct : List Char) : Option (List Char) :=
  (firstOcc? "boundary=".data ct).map fun i =>
    let rest := ct.drop (i + "boundary=".data.length)
    (rest.take ((firstOcc? "boundary=".data rest).getD rest.length)).takeWhile
      (· ≠ ';')

/-!
## Sanity checks of the csv reader model

Each equality below reproduces the behaviour of CPython's
`csv.reader` over `io.StringIO` on the same input.
-/

theorem csvParse_check_plain : csvParse "a,b\nc,d".data =
    ([[['a'], ['b']], [['c'], ['d']]], false) := by decide

theorem csvParse_check_blank_line : csvParse "\n".data = ([[]], false) := by
  decide

theorem csvParse_check_empty : csvParse "".data = ([], false) := by decide

theorem csvParse_check_bare_cr_error : csvParse "a\rb\n".data = ([], true) := by
  decide

theorem csvParse_check_error_after_record :
    csvParse "x\ny\rz".data = ([[['x']]], true) := by decide

theorem csvParse_check_doubled_quote :
    csvParse "\"a\"\"b\",c".data = ([[['a', '"', 'b'], ['c']]], false) := by
  decide

theorem csvParse_check_quoted_newline :
    csvParse "\"a\nb\"".data = ([[['a', '\n', 'b']]], false) := by decide

theorem csvParse_check_crlf : csvParse "a\r\nb".data =
    ([[['a']], [['b']]], false) := by decide

/-!
## Lemmas about the preview row loop
-/

theorem processRow_eq (h v : List String) (st : RowLoopSt)
    (ir : Nat × List String) :
    processRow h v st ir =
      { st with
        total := st.total + 1
        valid := st.valid + 1
        preview :=
          if st.preview.length < MAX_PREVIEW_ROWS then
            st.preview ++ [previewRowOf v (normalizedRowOf h ir.2)]
          else st.preview } := rfl

theorem processRow_total (h v : List String) (st : RowLoopSt)
    (ir : Nat × List String) : (processRow h v st ir).total = st.total + 1 := rfl

theorem processRow_valid (h v : List String) (st : RowLoopSt)
    (ir : Nat × List String) : (processRow h v st ir).valid = st.valid + 1 := rfl

theorem processRow_errors (h v : List String) (st : RowLoopSt)
    (ir : Nat × List String) : (processRow h v st ir).errors = st.errors := rfl

theorem rowLoop_counts (h v : List String) :
    ∀ (rows : List (Nat × List String)) (st : RowLoopSt),
      (rows.foldl (processRow h v) st).total = st.total + rows.length
      ∧ (rows.foldl (processRow h v) st).valid = st.valid + rows.length
      ∧ (rows.foldl (processRow h v) st).errors = st.errors := by
  intro rows
  induction rows with
  | nil => intro st; simp
  | cons r rs ih =>
    intro st
    rw [List.foldl_cons]
    obtain ⟨h1, h2, h3⟩ := ih (processRow h v st r)
    refine ⟨?_, ?_, ?_⟩
    · rw [h1, processRow_total, List.length_cons]; omega
    · rw [h2, processRow_valid, List.length_cons]; omega
    · rw [h3, processRow_errors]

theorem rowLoop_preview_le (h v : List String) :
    ∀ (rows : List (Nat × List String)) (st : RowLoopSt),
      st.preview.length ≤ MAX_PREVIEW_ROWS →
      (rows.foldl (processRow h v) st).preview.length ≤ MAX_PREVIEW_ROWS := by
  intro rows
  induction rows with
  | nil => intro st hst; simpa using hst
  | cons r rs ih =>
    intro st hst
    rw [List.foldl_cons]
    apply ih
    rw [processRow_eq]
    by_cases hlt : st.preview.length < MAX_PREVIEW_ROWS
    · simp [hlt]; omega
    · simp [hlt]; exact hst

theorem previewOfParse_main (hdrC : List (List Char))
    (dataC : List (List (List Char)))
    (hvc : validColumnsOf (headersOf hdrC) ≠ []) :
    previewOfParse (hdrC :: dataC) false =
      ⟨if (rowLoopOf (headersOf hdrC) dataC).valid > 0 then "success" else "warning",
        "Found " ++ toString (rowLoopOf (headersOf hdrC) dataC).valid
          ++ " valid rows out of "
          ++ toString (rowLoopOf (headersOf hdrC) dataC).total ++ " total rows",
        validColumnsOf (headersOf hdrC), invalidColumnsOf (headersOf hdrC),
        (rowLoopOf (headersOf hdrC) dataC).total,
        (rowLoopOf (headersOf hdrC) dataC).valid,
        (rowLoopOf (headersOf hdrC) dataC).preview,
        (rowLoopOf (headersOf hdrC) dataC).errors.take 10⟩ := by
  simp [previewOfParse, hvc]

theorem rowLoopOf_valid_eq_total (headers : List String)
    (dataC : List (List (List Char))) :
    (rowLoopOf headers dataC).valid = (rowLoopOf headers dataC).total
    ∧ (rowLoopOf headers dataC).errors = [] := by
  obtain ⟨ht, hv, he⟩ :=
    rowLoop_counts headers (validColumnsOf headers)
      ((dataRowsOf dataC).enum) ⟨0, 0, [], []⟩
  rw [rowLoopOf, ht, hv, he]
  exact ⟨rfl, rfl⟩

theorem previewOfParse_invariants (recs : List (List (List Char))) (err : Bool) :
    (previewOfParse recs err).valid_rows ≤ (previewOfParse recs err).total_rows
    ∧ ((previewOfParse recs err).status = "error"
        ↔ (previewOfParse recs err).valid_columns = [])
    ∧ ((previewOfParse recs err).status = "success"
        ↔ 0 < (previewOfParse recs err).valid_rows)
    ∧ ((previewOfParse recs err).status = "warning"
        ↔ ((previewOfParse recs err).valid_columns ≠ []
            ∧ (previewOfParse recs err).valid_rows = 0)) := by
  match recs with
  | [] =>
    cases err <;>
      simp [previewOfParse, parseErrorResponse, noValidColumnsResponse]
  | hdrC :: dataC =>
    by_cases hvc : validColumnsOf (headersOf hdrC) = []
    · simp [previewOfParse, hvc, noValidColumnsResponse]
    · cases err with
      | true => simp [previewOfParse, hvc, parseErrorResponse]
      | false =>
        rw [previewOfParse_main hdrC dataC hvc]
        obtain ⟨hvt, _⟩ := rowLoopOf_valid_eq_total (headersOf hdrC) dataC
        by_cases hpos : (rowLoopOf (headersOf hdrC) dataC).valid > 0
        · simp only [if_pos hpos]
          refine ⟨le_of_eq hvt, ?_, ?_, ?_⟩
          · exact iff_of_false (by decide) hvc
          · exact iff_of_true (by trivial) hpos
          · exact iff_of_false (by decide) (fun hc => by omega)
        · simp only [if_neg hpos]
          refine ⟨le_of_eq hvt, ?_, ?_, ?_⟩
          · exact iff_of_false (by decide) hvc
          · exact iff_of_false (by decide) hpos
          · exact iff_of_true (by trivial) ⟨hvc, by omega⟩

theorem previewOfParse_bounded (recs : List (List (List Char))) (err : Bool) :
    (previewOfParse recs err).preview_data.length ≤ 10
    ∧ (previewOfParse recs err).errors.length ≤ 10 := by
  match recs with
  | [] =>
    cases err <;>
      simp [previewOfParse, parseErrorResponse, noValidColumnsResponse]
  | hdrC :: dataC =>
    by_cases hvc : validColumnsOf (headersOf hdrC) = []
    · simp [previewOfParse, hvc, noValidColumnsResponse]
    · cases err with
      | true => simp [previewOfParse, hvc, parseErrorResponse]
      | false =>
        rw [previewOfParse_main hdrC dataC hvc]
        constructor
        · have hb :=
            rowLoop_preview_le (headersOf hdrC) (validColumnsOf (headersOf hdrC))
              ((dataRowsOf dataC).enum) ⟨0, 0, [], []⟩ (by simp [MAX_PREVIEW_ROWS])
          rw [rowLoopOf]
          exact hb
        · have := List.length_take 10 (rowLoopOf (headersOf hdrC) dataC).errors
          simp only [this]
          omega

/-- C3: on any byte input the preview result satisfies
`valid_row_count ≤ total_row_count`; `status = "error"` iff
`accepted_columns` is empty; `status = "success"` iff
`valid_row_count > 0`; and `status = "warning"` otherwise. -/
theorem c3_preview_result_invariants (b : List Nat) :
    (parse_csv_content b).valid_rows ≤ (parse_csv_content b).total_rows
    ∧ ((parse_csv_content b).status = "error"
        ↔ (parse_csv_content b).valid_columns = [])
    ∧ ((parse_csv_content b).status = "success"
        ↔ 0 < (parse_csv_content b).valid_rows)
    ∧ ((parse_csv_content b).status = "warning"
        ↔ ((parse_csv_content b).valid_columns ≠ []
            ∧ (parse_csv_content b).valid_rows = 0)) := by
  unfold parse_csv_content
  cases hdec : decodeUtf8 b with
  | none => simp [parseErrorResponse]
  | some cs => exact previewOfParse_invariants (csvParse cs).1 (csvParse cs).2

/-- C9: on any byte input the preview result carries at most 10 preview
rows and at most the first 10 error entries. -/
theorem c9_preview_and_errors_truncated (b : List Nat) :
    (parse_csv_content b).preview_data.length ≤ 10
    ∧ (parse_csv_content b).errors.length ≤ 10 := by
  unfold parse_csv_content
  cases hdec : decodeUtf8 b with
  | none => simp [parseErrorResponse]
  | some cs => exact previewOfParse_bounded (csvParse cs).1 (csvParse cs).2

theorem previewOfParse_err (recs : List (List (List Char))) :
    (previewOfParse recs true).status = "error"
    ∧ (previewOfParse recs true).errors ≠ [] := by
  match recs with
  | [] => simp [previewOfParse, parseErrorResponse]
  | hdrC :: dataC =>
    by_cases hvc : validColumnsOf (headersOf hdrC) = []
    · simp [previewOfParse, hvc, noValidColumnsResponse]
    · simp [previewOfParse, hvc, parseErrorResponse]

/-- C6: the preview operation is total (the embedding is a function on
all byte inputs), and each failure mode — undecodable input, or a
tokenizer error anywhere in the file — yields a result with
`status = "error"` and a non-empty `errors` sequence. -/
theorem c6_preview_failures_are_error_results (b : List Nat) :
    (decodeUtf8 b = none →
      (parse_csv_content b).status = "error"
      ∧ (parse_csv_content b).errors ≠ [])
    ∧ (∀ cs, decodeUtf8 b = some cs → (csvParse cs).2 = true →
      (parse_csv_content b).status = "error"
      ∧ (parse_csv_content b).errors ≠ []) := by
  constructor
  · intro h
    unfold parse_csv_content
    rw [h]
    simp [parseErrorResponse]
  · intro cs h herr
    have hval : parse_csv_content b = previewOfParse (csvParse cs).1 (csvParse cs).2 := by
      unfold parse_csv_content
      rw [h]
    rw [hval, herr]
    exact previewOfParse_err (csvParse cs).1

/-- Witness for C6 at the non-UTF-8 input `b"\xff"`. -/
theorem c6_preview_failures_are_error_results_witness :
    (parse_csv_content [255]).status = "error"
    ∧ (parse_csv_content [255]).errors ≠ [] :=
  (c6_preview_failures_are_error_results [255]).1 (by decide)

/-- C10: per-row validation in preview can never fail (every
`UserDataRow` field is an optional free-text string), so any decodable,
tokenizer-clean input with at least one accepted column reports
`valid_rows = total_rows` and no errors; and a row of entirely empty
cells counts as valid in preview even though `extract_valid_rows`
drops it. -/
theorem c10_preview_row_validation_never_fails :
    (∀ (b : List Nat) (cs : List Char) (hdrC : List (List Char))
        (dataC : List (List (List Char))),
      decodeUtf8 b = some cs → csvParse cs = (hdrC :: dataC, false) →
      validColumnsOf (headersOf hdrC) ≠ [] →
      (parse_csv_content b).valid_rows = (parse_csv_content b).total_rows
      ∧ (parse_csv_content b).errors = [])
    ∧ (parse_csv_content (asciiBytes "user_id,name\n,\n")).valid_rows = 1
    ∧ (parse_csv_content (asciiBytes "user_id,name\n,\n")).total_rows = 1
    ∧ extract_valid_rows (asciiBytes "user_id,name\n,\n") = [] := by
  refine ⟨?_, by decide, by decide, by decide⟩
  intro b cs hdrC dataC hdec hcsv hvc
  have hval : parse_csv_content b = previewOfParse (csvParse cs).1 (csvParse cs).2 := by
    unfold parse_csv_content
    rw [hdec]
  rw [hval, hcsv]
  rw [previewOfParse_main hdrC dataC hvc]
  obtain ⟨hvt, he⟩ := rowLoopOf_valid_eq_total (headersOf hdrC) dataC
  exact ⟨hvt, by simp [he]⟩

/-- Witness for C10 on a two-column, one-row file. -/
theorem c10_preview_row_validation_never_fails_witness :
    (parse_csv_content (asciiBytes "user_id,name\n1,J\n")).valid_rows
      = (parse_csv_content (asciiBytes "user_id,name\n1,J\n")).total_rows
    ∧ (parse_csv_content (asciiBytes "user_id,name\n1,J\n")).errors = [] :=
  c10_preview_row_validation_never_fails.1 (asciiBytes "user_id,name\n1,J\n")
    "user_id,name\n1,J\n".data ["user_id".data, "name".data]
    [["1".data, "J".data]] (by decide) (by decide) (by decide)

theorem validate_ext_fail (content : List Nat) (filename : String)
    (hext : endsList (pyLower filename).data ".csv".data = false) :
    validate_csv_file content filename =
      (false, "Only .csv files are accepted") := by
  simp [validate_csv_file, hext]

theorem validate_size_fail (content : List Nat) (filename : String)
    (hext : endsList (pyLower filename).data ".csv".data = true)
    (hsz : content.length > MAX_FILE_SIZE_BYTES) :
    validate_csv_file content filename =
      (false, "File size exceeds 5MB limit") := by
  simp [validate_csv_file, hext, hsz]

theorem validate_enc_fail (content : List Nat) (filename : String)
    (hext : endsList (pyLower filename).data ".csv".data = true)
    (hsz : ¬ content.length > MAX_FILE_SIZE_BYTES)
    (hdec : decodeUtf8 content = none) :
    validate_csv_file content filename =
      (false, "File encoding not supported. Please use UTF-8 encoding") := by
  simp [validate_csv_file, hext, hsz, hdec]

theorem validate_parse_fail (content : List Nat) (filename : String)
    (cs : List Char)
    (hext : endsList (pyLower filename).data ".csv".data = true)
    (hsz : ¬ content.length > MAX_FILE_SIZE_BYTES)
    (hdec : decodeUtf8 content = some cs)
    (hrec : (csvParse cs).1 = []) :
    validate_csv_file content filename =
      (false,
        if (csvParse cs).2 then "Invalid CSV format" else "Empty CSV file") := by
  simp only [validate_csv_file, hext, hsz, hdec, hrec]
  by_cases herr : (csvParse cs).2 = true <;> simp [herr]

theorem validate_ok (content : List Nat) (filename : String) (cs : List Char)
    (hext : endsList (pyLower filename).data ".csv".data = true)
    (hsz : ¬ content.length > MAX_FILE_SIZE_BYTES)
    (hdec : decodeUtf8 content = some cs)
    (hrec : (csvParse cs).1 ≠ []) :
    validate_csv_file content filename = (true, "") := by
  simp [validate_csv_file, hext, hsz, hdec, hrec]

/-- C4: `validate` runs its four checks in source order — `.csv`
extension (case-insensitive), 5 MiB size ceiling, UTF-8 decodability,
and a first parsed row — short-circuiting on the first failure with a
check-specific reason; it returns `(true, "")` iff all four pass; and
any input over 5 MiB is rejected regardless of content. -/
theorem c4_validate_four_checks (content : List Nat) (filename : String) :
    (endsList (pyLower filename).data ".csv".data = false →
      validate_csv_file content filename =
        (false, "Only .csv files are accepted"))
    ∧ (endsList (pyLower filename).data ".csv".data = true →
      content.length > MAX_FILE_SIZE_BYTES →
      validate_csv_file content filename =
        (false, "File size exceeds 5MB limit"))
    ∧ (endsList (pyLower filename).data ".csv".data = true →
      content.length ≤ MAX_FILE_SIZE_BYTES →
      decodeUtf8 content = none →
      validate_csv_file content filename =
        (false, "File encoding not supported. Please use UTF-8 encoding"))
    ∧ (∀ cs, endsList (pyLower filename).data ".csv".data = true →
      content.length ≤ MAX_FILE_SIZE_BYTES →
      decodeUtf8 content = some cs → (csvParse cs).1 = [] →
      validate_csv_file content filename =
        (false,
          if (csvParse cs).2 then "Invalid CSV format" else "Empty CSV file"))
    ∧ (validate_csv_file content filename = (true, "")
        ↔ (endsList (pyLower filename).data ".csv".data = true
            ∧ content.length ≤ MAX_FILE_SIZE_BYTES
            ∧ ∃ cs, decodeUtf8 content = some cs ∧ (csvParse cs).1 ≠ []))
    ∧ (content.length > MAX_FILE_SIZE_BYTES →
      (validate_csv_file content filename).1 = false) := by
  refine ⟨validate_ext_fail content filename, validate_size_fail content filename,
    ?_, ?_, ?_, ?_⟩
  · intro hext hsz hdec
    exact validate_enc_fail content filename hext (by omega) hdec
  · intro cs hext hsz hdec hrec
    exact validate_parse_fail content filename cs hext (by omega) hdec hrec
  · constructor
    · intro hok
      by_cases hext : endsList (pyLower filename).data ".csv".data = true
      · by_cases hsz : content.length > MAX_FILE_SIZE_BYTES
        · rw [validate_size_fail content filename hext hsz] at hok
          simp at hok
        · cases hdec : decodeUtf8 content with
          | none =>
            rw [validate_enc_fail content filename hext hsz hdec] at hok
            simp at hok
          | some cs =>
            by_cases hrec : (csvParse cs).1 = []
            · rw [validate_parse_fail content filename cs hext hsz hdec hrec]
                at hok
              simp at hok
            · exact ⟨hext, by omega, ⟨cs, ⟨rfl, hrec⟩⟩⟩
      · rw [validate_ext_fail content filename (by simpa using hext)] at hok
        simp at hok
    · rintro ⟨hext, hsz, cs, hdec, hrec⟩
      exact validate_ok content filename cs hext (by omega) hdec hrec
  · intro hsz
    by_cases hext : endsList (pyLower filename).data ".csv".data = true
    · rw [validate_size_fail content filename hext hsz]
    · rw [validate_ext_fail content filename (by simpa using hext)]

/-- Witness for C4: a small valid upload passes all four checks. -/
theorem c4_validate_four_checks_witness :
    validate_csv_file (asciiBytes "a,b\n1,2\n") "data.CSV" = (true, "") :=
  (c4_validate_four_checks (asciiBytes "a,b\n1,2\n") "data.CSV").2.2.2.2.1.mpr
    ⟨by decide, by decide, ⟨"a,b\n1,2\n".data, by decide, by decide⟩⟩

/-- C7: `write_rows` on an empty sequence returns 0 at once without
touching the record store; with the batch call reporting full success
it returns the number of rows submitted. -/
theorem c7_write_rows_count (csv_rows : List (List (String × String)))
    (s3_file_key : String) (batchOk : Bool) :
    (csv_rows = [] →
      write_csv_data csv_rows s3_file_key batchOk = (some 0, false))
    ∧ (batchOk = true →
      (write_csv_data csv_rows s3_file_key batchOk).1 = some csv_rows.length) := by
  constructor
  · intro h
    subst h
    simp [write_csv_data]
  · intro h
    subst h
    by_cases he : csv_rows.isEmpty
    · rw [List.isEmpty_iff] at he
      subst he
      simp [write_csv_data]
    · simp [write_csv_data, he]

/-- Witness for C7 on an empty and a one-row call. -/
theorem c7_write_rows_count_witness :
    write_csv_data [] "k" true = (some 0, false)
    ∧ (write_csv_data [[("name", "J")]] "k" true).1 = some 1 :=
  ⟨(c7_write_rows_count [] "k" true).1 rfl,
    (c7_write_rows_count [[("name", "J")]] "k" true).2 rfl⟩

theorem extractStep_eq (h : List String) (acc : List (List (String × String)))
    (rec : List String) :
    extractStep h acc rec =
      if ((normalizedRowOf h rec).map (·.2)).any (· ≠ "") then
        acc ++ [normalizedRowOf h rec]
      else acc := rfl

theorem extractLoop_eq (h : List String) :
    ∀ (rows : List (List String)) (acc : List (List (String × String))),
      rows.foldl (extractStep h) acc =
        acc ++ ((rows.map (normalizedRowOf h)).filter
          fun nr => ((nr.map (·.2)).any (· ≠ "")) && (rowValidate nr).isSome) := by
  intro rows
  induction rows with
  | nil => intro acc; simp
  | cons r rs ih =>
    intro acc
    rw [List.foldl_cons, extractStep_eq, List.map_cons, List.filter_cons]
    have hv : (rowValidate (normalizedRowOf h r)).isSome = true := rfl
    cases hbool : ((normalizedRowOf h r).map (·.2)).any (· ≠ "") with
    | true =>
      rw [ih]
      simp [hv]
    | false =>
      rw [ih]
      simp

/-- C5: on decodable, tokenizer-clean input, `extract_rows` returns
exactly the normalized data rows passing both conditions — some mapped
field non-empty after trimming, and per-field validation — and drops
the rest silently (the function is total and surfaces no error). -/
theorem c5_extract_rows_inclusion (b : List Nat) (cs : List Char)
    (hdrC : List (List Char)) (dataC : List (List (List Char)))
    (hdec : decodeUtf8 b = some cs)
    (hcsv : csvParse cs = (hdrC :: dataC, false)) :
    extract_valid_rows b =
      ((dataRowsOf dataC).map (normalizedRowOf (headersOf hdrC))).filter
        (fun nr => ((nr.map (·.2)).any (· ≠ "")) && (rowValidate nr).isSome) := by
  have hval : extract_valid_rows b
      = extractOfParse (csvParse cs).1 (csvParse cs).2 := by
    unfold extract_valid_rows
    rw [hdec]
  rw [hval, hcsv]
  show (dataRowsOf dataC).foldl (extractStep (headersOf hdrC)) [] = _
  rw [extractLoop_eq]
  simp

/-- Witness for C5 on a three-row file with one all-empty row. -/
theorem c5_extract_rows_inclusion_witness :
    extract_valid_rows (asciiBytes "user_id,name\n1,J\n,\n2,K\n") =
      ((dataRowsOf [[['1'], ['J']], [[], []], [['2'], ['K']]]).map
        (normalizedRowOf (headersOf ["user_id".data, "name".data]))).filter
        (fun nr => ((nr.map (·.2)).any (· ≠ "")) && (rowValidate nr).isSome) :=
  c5_extract_rows_inclusion (asciiBytes "user_id,name\n1,J\n,\n2,K\n")
    "user_id,name\n1,J\n,\n2,K\n".data ["user_id".data, "name".data]
    [[['1'], ['J']], [[], []], [['2'], ['K']]] (by decide) (by decide)

/-- C1: the claim's case-insensitive column acceptance fails on the
code: on the upload `b"Name\nJohn"`, whose single header differs from
the schema name `name` only in case, the preview classifies `Name` as
an invalid column and errors out with no accepted columns — while the
extraction path of the very same module maps that header
case-insensitively and keeps its data. -/
theorem c1_header_case_rejected_by_preview :
    (parse_csv_content (asciiBytes "Name\nJohn")).valid_columns = []
    ∧ (parse_csv_content (asciiBytes "Name\nJohn")).invalid_columns = ["Name"]
    ∧ (parse_csv_content (asciiBytes "Name\nJohn")).status = "error"
    ∧ extract_valid_rows (asciiBytes "Name\nJohn") = [[("name", "John")]] := by
  refine ⟨by decide, by decide, by decide, by decide⟩

/-- C2: with CRLF line endings the multipart payload after the
blank-line separator is extracted intact (`"hello"`), but with bare-LF
line endings the code still skips four characters past the start of the
two-character `"\n\n"` separator and so drops the first two payload
bytes, returning `"llo"` — against the claim (and the code's own
comment). -/
theorem c2_lf_blank_line_payload_truncated :
    parse_multipart_file
      ("--B\nContent-Disposition: form-data; name=\"file\"; filename=\"a.csv\"\n\nhello\n--B--").data
      ("multipart/form-data; boundary=B").data
      = some ("llo".data, "a.csv".data)
    ∧ parse_multipart_file
      ("--B\r\nContent-Disposition: form-data; name=\"file\"; filename=\"a.csv\"\r\n\r\nhello\r\n--B--\r\n").data
      ("multipart/form-data; boundary=B").data
      = some ("hello".data, "a.csv".data) := by
  refine ⟨by decide, by decide⟩

theorem leadsWith_length : ∀ (p l : List Char), leadsWith p l = true →
    p.length ≤ l.length := by
  intro p
  induction p with
  | nil => intro l _; simp
  | cons a p ih =>
    intro l h
    cases l with
    | nil => simp [leadsWith] at h
    | cons b l =>
      simp only [leadsWith, Bool.and_eq_true] at h
      have := ih l h.2
      simp only [List.length_cons]
      omega

theorem firstOcc?_le (pat : List Char) : ∀ (l : List Char) (i : Nat),
    firstOcc? pat l = some i → i + pat.length ≤ l.length := by
  intro l
  induction l with
  | nil =>
    intro i h
    simp only [firstOcc?] at h
    by_cases hp : pat.isEmpty
    · rw [List.isEmpty_iff] at hp
      simp [hp] at h ⊢
      omega
    · simp [hp] at h
  | cons c rest ih =>
    intro i h
    simp only [firstOcc?] at h
    by_cases hl : leadsWith pat (c :: rest) = true
    · simp [hl] at h
      have := leadsWith_length pat (c :: rest) hl
      omega
    · simp [hl] at h
      obtain ⟨j, hj, hji⟩ := h
      have := ih j hj
      simp only [List.length_cons]
      omega

theorem splitGo_fuel (pat : List Char) (hpat : pat ≠ []) :
    ∀ (f1 f2 : Nat) (l : List Char), l.length < f1 → l.length < f2 →
      splitGo pat f1 l = splitGo pat f2 l := by
  intro f1
  induction f1 with
  | zero => intro f2 l h1 _; omega
  | succ f1 ih =>
    intro f2 l h1 h2
    cases f2 with
    | zero => omega
    | succ f2 =>
      simp only [splitGo]
      cases hocc : firstOcc? pat l with
      | none => rfl
      | some i =>
        have hle := firstOcc?_le pat l i hocc
        have hplen : 0 < pat.length := List.length_pos.mpr hpat
        show List.take i l :: splitGo pat f1 (List.drop (i + pat.length) l)
          = List.take i l :: splitGo pat f2 (List.drop (i + pat.length) l)
        congr 1
        apply ih
        · rw [List.length_drop]; omega
        · rw [List.length_drop]; omega

theorem splitOnSub_cons (pat : List Char) (hpat : pat ≠ []) (l : List Char)
    (i : Nat) (hocc : firstOcc? pat l = some i) :
    splitOnSub pat l = l.take i :: splitOnSub pat (l.drop (i + pat.length)) := by
  have hplen : 0 < pat.length := List.length_pos.mpr hpat
  have hle := firstOcc?_le pat l i hocc
  have hne : ¬ pat.isEmpty = true := by
    rw [List.isEmpty_iff]
    exact hpat
  unfold splitOnSub
  rw [if_neg hne, if_neg hne]
  have step : splitGo pat (l.length + 1) l
      = l.take i :: splitGo pat l.length (l.drop (i + pat.length)) := by
    simp only [splitGo, hocc]
  rw [step]
  congr 1
  apply splitGo_fuel pat hpat
  · rw [List.length_drop]; omega
  · rw [List.length_drop]; omega

theorem splitOnSub_single (pat : List Char) (hpat : pat ≠ []) (l : List Char)
    (hocc : firstOcc? pat l = none) : splitOnSub pat l = [l] := by
  have hne : ¬ pat.isEmpty = true := by
    rw [List.isEmpty_iff]
    exact hpat
  unfold splitOnSub
  rw [if_neg hne]
  simp only [splitGo, hocc]

theorem containsSub_eq_isSome (pat : List Char) :
    ∀ l, containsSub pat l = (firstOcc? pat l).isSome := by
  intro l
  induction l with
  | nil =>
    simp only [containsSub, firstOcc?]
    by_cases hp : pat.isEmpty <;> simp [hp]
  | cons c rest ih =>
    simp only [containsSub, firstOcc?]
    by_cases hl : leadsWith pat (c :: rest) = true <;> simp [hl, ih]

theorem leadsWith_single (c a : Char) (r : List Char) :
    leadsWith [c] (a :: r) = (a == c) := by
  simp only [leadsWith, Bool.and_true, beq_iff_eq]
  simp [eq_comm]

theorem takeWhile_firstOcc_single (c : Char) : ∀ (x : List Char),
    (firstOcc? [c] x = none → x.takeWhile (· ≠ c) = x)
    ∧ (∀ i, firstOcc? [c] x = some i → x.takeWhile (· ≠ c) = x.take i) := by
  intro x
  induction x with
  | nil =>
    refine ⟨fun _ => rfl, fun i h => ?_⟩
    simp [firstOcc?] at h
  | cons a r ih =>
    constructor
    · intro h
      simp only [firstOcc?, leadsWith_single] at h
      by_cases ha : a = c
      · simp [ha] at h
      · simp [ha] at h
        rw [List.takeWhile_cons_of_pos (by simp [ha]), ih.1 h]
    · intro i h
      simp only [firstOcc?, leadsWith_single] at h
      by_cases ha : a = c
      · simp [ha] at h
        rw [List.takeWhile_cons_of_neg (by simp [ha]), ← h]
        rfl
      · simp [ha] at h
        obtain ⟨j, hj, hji⟩ := h
        rw [List.takeWhile_cons_of_pos (by simp [ha]), ih.2 j hj, ← hji]
        rfl

theorem splitOnSub_semicolon_head (x : List Char) :
    (splitOnSub [';'] x).headD [] = x.takeWhile (· ≠ ';') := by
  cases hocc : firstOcc? [';'] x with
  | none =>
    rw [splitOnSub_single [';'] (by decide) x hocc]
    exact ((takeWhile_firstOcc_single ';' x).1 hocc).symm
  | some i =>
    rw [splitOnSub_cons [';'] (by decide) x i hocc]
    exact ((takeWhile_firstOcc_single ';' x).2 i hocc).symm

theorem extract_boundary_eq_amended (ct : List Char) :
    extract_boundary ct = boundarySpecAmended ct := by
  cases hocc : firstOcc? "boundary=".data ct with
  | none =>
    have hcs : containsSub "boundary=".data ct = false := by
      rw [containsSub_eq_isSome, hocc]
      rfl
    unfold extract_boundary boundarySpecAmended
    rw [hocc, hcs]
    simp
  | some i =>
    have hcs : containsSub "boundary=".data ct = true := by
      rw [containsSub_eq_isSome, hocc]
      rfl
    have hsplit := splitOnSub_cons "boundary=".data (by decide) ct i hocc
    unfold extract_boundary boundarySpecAmended
    rw [hocc, hcs, hsplit]
    cases hocc2 : firstOcc? "boundary=".data
        (List.drop (i + "boundary=".data.length) ct) with
    | none =>
      rw [splitOnSub_single "boundary=".data (by decide) _ hocc2, if_pos rfl]
      simp only [Option.map_some', List.getD_cons_succ, List.getD_cons_zero]
      rw [splitOnSub_semicolon_head]
      have hlit : firstOcc? ['b', 'o', 'u', 'n', 'd', 'a', 'r', 'y', '=']
          (List.drop (i + ['b', 'o', 'u', 'n', 'd', 'a', 'r', 'y', '='].length) ct)
          = none := hocc2
      rw [hlit]
      simp only [Option.getD_none, List.take_length]
    | some j =>
      rw [splitOnSub_cons "boundary=".data (by decide) _ j hocc2, if_pos rfl]
      simp only [Option.map_some', List.getD_cons_succ, List.getD_cons_zero]
      rw [splitOnSub_semicolon_head]
      have hlit : firstOcc? ['b', 'o', 'u', 'n', 'd', 'a', 'r', 'y', '=']
          (List.drop (i + ['b', 'o', 'u', 'n', 'd', 'a', 'r', 'y', '='].length) ct)
          = some j := hocc2
      rw [hlit]
      simp only [Option.getD_some]

theorem findFilePart_none (boundary : List Char) :
    ∀ (parts : List (List Char)),
      (∀ p ∈ parts,
        ¬(containsSub "filename=".data p = true
          ∧ containsSub "name=\"file\"".data p = true)) →
      findFilePart boundary parts = none := by
  intro parts
  induction parts with
  | nil => intro _; rfl
  | cons part rest ih =>
    intro hall
    have hpart := hall part (List.mem_cons_self part rest)
    have hcond : (containsSub "filename=".data part
        && containsSub "name=\"file\"".data part) = false := by
      cases h1 : containsSub "filename=".data part <;>
        cases h2 : containsSub "name=\"file\"".data part <;>
          simp_all
    unfold findFilePart
    rw [hcond]
    simp only [Bool.false_eq_true, if_false]
    exact ih fun p hp => hall p (List.mem_cons_of_mem part hp)

/-- C8 counterexample: on
`"multipart/form-data; boundary=abboundary=cd;e"` the code's boundary
(`split("boundary=")[1].split(";")[0]`) is `"ab"`, while the claim's
"substring after `boundary=` up to the next semicolon or end of header"
is `"abboundary=cd"` — the claim as stated fails when `boundary=`
occurs again before the semicolon. -/
theorem c8_boundary_value_counterexample :
    extract_boundary "multipart/form-data; boundary=abboundary=cd;e".data
      = some "ab".data
    ∧ boundarySpecOriginal "multipart/form-data; boundary=abboundary=cd;e".data
      = some "abboundary=cd".data
    ∧ some ("ab".data) ≠ some ("abboundary=cd".data) := by
  refine ⟨by decide, by decide, by decide⟩

/-- C8 (amended): `extract` returns not-found — never an exception, the
embedding being total — when the content type carries no `boundary=`
parameter, or when no part carries both a `filename=` attribute and the
`name="file"` field marker; and the boundary value used is the
substring after the first `boundary=`, truncated at the next occurrence
of `boundary=` (if any) and then at the next semicolon or end of
header. -/
theorem c8_multipart_not_found (body ct : List Char) :
    (containsSub "boundary=".data ct = false →
      parse_multipart_file body ct = none)
    ∧ extract_boundary ct = boundarySpecAmended ct
    ∧ (∀ bd, extract_boundary ct = some bd →
        (∀ p ∈ splitOnSub ('-' :: '-' :: bd) body,
          ¬(containsSub "filename=".data p = true
            ∧ containsSub "name=\"file\"".data p = true)) →
        parse_multipart_file body ct = none) := by
  refine ⟨?_, extract_boundary_eq_amended ct, ?_⟩
  · intro h
    have hb : extract_boundary ct = none := by
      unfold extract_boundary
      rw [h]
      simp
    unfold parse_multipart_file
    rw [hb]
  · intro bd hbd hall
    have hval : parse_multipart_file body ct =
        (if bd.isEmpty then none
          else findFilePart bd (splitOnSub ('-' :: '-' :: bd) body)) := by
      unfold parse_multipart_file
      rw [hbd]
    rw [hval]
    by_cases hemp : bd.isEmpty = true
    · rw [if_pos hemp]
    · rw [if_neg hemp]
      exact findFilePart_none bd _ hall

/-- Witness for C8 on a content type carrying no boundary. -/
theorem c8_multipart_not_found_witness :
    parse_multipart_file "x".data "text/plain".data = none :=
  (c8_multipart_not_found "x".data "text/plain".data).1 (by decide)
